import Mathlib

/-!
Shallow embedding of `IGDividendPDFDataExtract.py`: a batch utility that
reads page 3 of each PDF in a directory, extracts four dividend fields with
regular expressions, and appends one row per fully matched document to the
"Dividends" sheet of an Excel workbook.

Modelling conventions:
* Page texts are `List Char`; regex character classes are modelled over
  ASCII (`\d` = `0-9`, `[A-Za-z]` = ASCII letters, `\s` = ASCII whitespace,
  `\w` = ASCII letters, digits and underscore), matching Python `re` on the
  ASCII inputs this program processes.
* `re.search` is modelled as a scan of anchor positions left to right; at
  each anchor the pattern's backtracking order (greedy quantifiers, ordered
  alternation) is reproduced by an explicit anchored matcher returning the
  matched substring.
* Python `float` applied to a decimal literal is modelled as the exact
  rational value of the literal (`ℚ`).
* A PDF on disk is either unreadable (opening or parsing raises) or a list
  of page texts; Python exceptions are modelled with `Except`.
* A workbook is a list of named sheets, a sheet a list of rows, a cell
  either a text cell or a numeric cell.
-/

/-- ASCII model of the regex class `\s` (Python whitespace). -/
def isSpaceChar (c : Char) : Bool :=
  c = ' ' || c = '\t' || c = '\n' || c = '\r' || c = '\x0b' || c = '\x0c'

/-- ASCII model of the regex word-character class used by `\b`. -/
def isWordChar (c : Char) : Bool :=
  c.isAlpha || c.isDigit || c = '_'

/-- The character class `[A-Za-z\s&-]` of the issuer-name pattern. -/
def isClassChar (c : Char) : Bool :=
  c.isAlpha || isSpaceChar c || c = '&' || c = '-'

/-- `\b` of Python `re` at position `i` of `t`: exactly one of the adjacent
positions holds a word character. -/
def boundary (t : List Char) (i : ℕ) : Bool :=
  let before :=
    match i with
    | 0 => false
    | j + 1 =>
      match t.get? j with
      | some c => isWordChar c
      | none => false
  let after :=
    match t.get? i with
    | some c => isWordChar c
    | none => false
  before != after

/-- Anchored matcher for `(\d{2}[A-Za-z]{3}\d{2})` (line 51 of the source):
the seven characters starting at `i` are digit, digit, letter, letter,
letter, digit, digit. -/
def dateAt (t : List Char) (i : ℕ) : Option (List Char) :=
  match (t.drop i).take 7 with
  | [a, b, c, d, e, f, g] =>
    if a.isDigit && b.isDigit && c.isAlpha && d.isAlpha && e.isAlpha
        && f.isDigit && g.isDigit then
      some [a, b, c, d, e, f, g]
    else none
  | _ => none

/-- The corporate-suffix alternation `(Ltd|PLC|Inc|Corp|Co|Group)` in the
order the source writes it. -/
def nameSuffixes : List (List Char) :=
  ["Ltd".toList, "PLC".toList, "Inc".toList, "Corp".toList,
   "Co".toList, "Group".toList]

/-- Try the suffix alternation at position `p`, in order, requiring the
trailing `\b` after the suffix; returns the first alternative that fits. -/
def tryAlts (t : List Char) (p : ℕ) : Option (List Char) :=
  nameSuffixes.findSome? fun sfx =>
    if (t.drop p).take sfx.length == sfx && boundary t (p + sfx.length) then
      some sfx
    else none

/-- Backtracking of the greedy `[A-Za-z\s&-]+`: try `k` consumed class
characters, from the maximal run length down to one. -/
def nameTry (t : List Char) (i : ℕ) : ℕ → Option (List Char)
  | 0 => none
  | k + 1 =>
    match tryAlts t (i + (k + 1)) with
    | some sfx => some ((t.drop i).take (k + 1) ++ sfx)
    | none => nameTry t i k

/-- Anchored matcher for `(\b[A-Za-z\s&-]+(Ltd|PLC|Inc|Corp|Co|Group)\b)`
(line 52 of the source) at position `i`, reproducing the regex engine's
greedy-then-backtrack behaviour. -/
def nameAt (t : List Char) (i : ℕ) : Option (List Char) :=
  if boundary t i then
    nameTry t i ((t.drop i).takeWhile isClassChar).length
  else none

/-- Anchored matcher for `(\d+@\d+\.\d+)` (line 53 of the source).  The
greedy `\d+` runs are deterministic here because no shorter run can make
the following literal character match. -/
def dividendAt (t : List Char) (i : ℕ) : Option (List Char) :=
  let s := t.drop i
  let d1 := s.takeWhile Char.isDigit
  if d1.isEmpty then none
  else
    match s.drop d1.length with
    | '@' :: s1 =>
      let d2 := s1.takeWhile Char.isDigit
      if d2.isEmpty then none
      else
        match s1.drop d2.length with
        | '.' :: s2 =>
          let d3 := s2.takeWhile Char.isDigit
          if d3.isEmpty then none
          else some (d1 ++ '@' :: (d2 ++ '.' :: d3))
        | _ => none
    | _ => none

/-- Anchored matcher for `Dividend\s(\d+\.\d+)` (line 54 of the source),
returning the captured group 1 (the decimal after the single whitespace
character). -/
def amountAt (t : List Char) (i : ℕ) : Option (List Char) :=
  let s := t.drop i
  if s.take 8 == "Dividend".toList then
    match s.drop 8 with
    | w :: s1 =>
      if isSpaceChar w then
        let d1 := s1.takeWhile Char.isDigit
        if d1.isEmpty then none
        else
          match s1.drop d1.length with
          | '.' :: s2 =>
            let d2 := s2.takeWhile Char.isDigit
            if d2.isEmpty then none else some (d1 ++ '.' :: d2)
          | _ => none
      else none
    | [] => none
  else none

/-- Scan anchor positions `i, i+1, …` (`fuel` of them), returning the first
anchored match: the leftmost-match rule of `re.search`. -/
def searchAux {α : Type} (m : ℕ → Option α) : ℕ → ℕ → Option α
  | _, 0 => none
  | i, fuel + 1 =>
    match m i with
    | some v => some v
    | none => searchAux m (i + 1) fuel

/-- `re.search` over a text of length `len`: anchors `0 … len`. -/
def reSearch (m : ℕ → Option (List Char)) (len : ℕ) : Option (List Char) :=
  searchAux m 0 (len + 1)

/-- Decimal digit string to natural number. -/
def digitsToNat (s : List Char) : ℕ :=
  s.foldl (fun n c => 10 * n + (c.toNat - '0'.toNat)) 0

/-- Exact value of a decimal literal `d1.d2`, modelling Python
`float(...)` applied to the captured amount group: the rational
`d1 + d2 / 10 ^ |d2|`, built with `mkRat` so that it evaluates inside the
kernel (see `parseDecimal_eq_add_div`). -/
def parseDecimal (s : List Char) : ℚ :=
  let d1 := s.takeWhile Char.isDigit
  let d2 := (s.drop (d1.length + 1)).takeWhile Char.isDigit
  mkRat (digitsToNat d1 * 10 ^ d2.length + digitsToNat d2) (10 ^ d2.length)

/-- The record built at lines 56–66 of the source. -/
structure DividendRecord where
  date : List Char
  name : List Char
  dividendDetails : List Char
  amount : ℚ
deriving DecidableEq, Repr

/-- The regex stage of `extract_dividend_details` (lines 51–67): run the
four searches on the page text; if all four match, build the record (the
amount converted to a number), otherwise return `None`. -/
def extractFromText (text : List Char) : Option DividendRecord :=
  match reSearch (dateAt text) text.length, reSearch (nameAt text) text.length,
      reSearch (dividendAt text) text.length,
      reSearch (amountAt text) text.length with
  | some date, some nm, some dd, some amt =>
    some ⟨date, nm, dd, parseDecimal amt⟩
  | _, _, _, _ => none

/-- A PDF on disk: either opening/parsing it raises, or it is a list of
page texts. -/
inductive PdfDoc where
  | unreadable
  | readable (pages : List (List Char))
deriving DecidableEq

/-- The exception raised by `PyPDF2.PdfReader` on an unreadable file. -/
inductive PdfError where
  | unreadableDocument
deriving DecidableEq

/-- `extract_dividend_details` (lines 34–67): an unreadable file raises;
a document with fewer than 3 pages yields `None`; otherwise the regex
stage runs on the text of page index 2 (the 1-based third page). -/
def extract_dividend_details : PdfDoc → Except PdfError (Option DividendRecord)
  | .unreadable => .error .unreadableDocument
  | .readable pages =>
    if pages.length < 3 then .ok none
    else .ok (extractFromText (pages.getD 2 []))

/-- A spreadsheet cell: text or numeric. -/
inductive Cell where
  | str (s : List Char)
  | num (q : ℚ)
deriving DecidableEq

/-- A workbook: named sheets, each a list of rows of cells. -/
structure Workbook where
  sheets : List (List Char × List (List Cell))
deriving DecidableEq

/-- The sheet name used by the program. -/
def dividendsName : List Char := "Dividends".toList

/-- The header row appended at line 76 of the source. -/
def headerRow : List Cell :=
  [Cell.str "Date".toList, Cell.str "Name".toList,
   Cell.str "Dividend Details".toList, Cell.str "Amount".toList]

/-- Lookup of the first sheet with a given name in a sheet list. -/
def lookupSheet : List (List Char × List (List Cell)) → List Char →
    Option (List (List Cell))
  | [], _ => none
  | p :: rest, nm => if p.1 = nm then some p.2 else lookupSheet rest nm

/-- `workbook["Dividends"]`-style lookup: the first sheet with the given
name, if any. -/
def findSheet (wb : Workbook) (nm : List Char) : Option (List (List Cell)) :=
  lookupSheet wb.sheets nm

/-- Replace the rows of every sheet with the given name. -/
def setSheetRows : List (List Char × List (List Cell)) → List Char →
    List (List Cell) → List (List Char × List (List Cell))
  | [], _, _ => []
  | p :: rest, nm, rows =>
    if p.1 = nm then (p.1, rows) :: setSheetRows rest nm rows
    else p :: setSheetRows rest nm rows

/-- The workbook after the named sheet's rows are replaced. -/
def setSheet (wb : Workbook) (nm : List Char) (rows : List (List Cell)) :
    Workbook :=
  ⟨setSheetRows wb.sheets nm rows⟩

/-- `sheet.append(entry)` for one extracted tuple: openpyxl writes the three
strings as text cells and the float as a numeric cell. -/
def toRow (r : DividendRecord) : List Cell :=
  [Cell.str r.date, Cell.str r.name, Cell.str r.dividendDetails,
   Cell.num r.amount]

/-- The `for entry in data: sheet.append(entry)` loop (lines 81–82). -/
def appendRows (rows : List (List Cell)) : List DividendRecord → List (List Cell)
  | [] => rows
  | r :: rest => appendRows (rows ++ [toRow r]) rest

/-- The `KeyError` raised by `workbook["Dividends"]` when the sheet is
absent. -/
inductive ExcelError where
  | sheetNotFound
deriving DecidableEq

/-- `update_excel` (lines 71–84): if the destination does not exist, create
a workbook whose single sheet "Dividends" starts with the header row; if it
exists, look up the "Dividends" sheet (raising if absent); append the data
rows in order; save. The returned workbook is the saved file. -/
def update_excel (fs : Option Workbook) (data : List DividendRecord) :
    Except ExcelError Workbook :=
  match fs with
  | none => .ok ⟨[(dividendsName, appendRows [headerRow] data)]⟩
  | some wb =>
    match findSheet wb dividendsName with
    | none => .error .sheetNotFound
    | some rows => .ok (setSheet wb dividendsName (appendRows rows data))

/-- An exception escaping `process_pdfs`: from the PDF stage or the Excel
stage. -/
inductive RunError where
  | pdf (e : PdfError)
  | excel (e : ExcelError)
deriving DecidableEq

/-- The collection loop of `process_pdfs` (lines 91–96): for each directory
entry whose name ends in ".pdf", run `extract_dividend_details`; a raised
exception propagates immediately; a `None` result is skipped; records are
collected in enumeration order. -/
def collectRecords : List (List Char × PdfDoc) → Except PdfError (List DividendRecord)
  | [] => .ok []
  | (nm, doc) :: rest =>
    if (".pdf".toList).isSuffixOf nm then
      match extract_dividend_details doc with
      | .error e => .error e
      | .ok none => collectRecords rest
      | .ok (some r) =>
        match collectRecords rest with
        | .error e => .error e
        | .ok recs => .ok (r :: recs)
    else collectRecords rest

/-- `process_pdfs` (lines 88–101): collect the records of the directory,
then make the single `update_excel` call. The result is the saved
workbook, or the exception that aborted the run. -/
def process_pdfs (dir : List (List Char × PdfDoc)) (fs : Option Workbook) :
    Except RunError Workbook :=
  match collectRecords dir with
  | .error e => .error (.pdf e)
  | .ok data =>
    match update_excel fs data with
    | .error e => .error (.excel e)
    | .ok wb => .ok wb

/-- `True` exactly when the run completed with a saved workbook. -/
def savesOk {ε α : Type} : Except ε α → Bool
  | .ok _ => true
  | .error _ => false

/-- `v` is the first occurrence of the pattern `m` scanning anchor
positions left to right: some position matches with value `v` and every
earlier position fails. -/
def FirstMatch (m : ℕ → Option (List Char)) (v : List Char) : Prop :=
  ∃ i, m i = some v ∧ ∀ j, j < i → m j = none

/-! ### Characterisation of the left-to-right search -/

lemma searchAux_some_iff {α : Type} (m : ℕ → Option α) :
    ∀ (fuel i : ℕ) (v : α),
      searchAux m i fuel = some v ↔
        ∃ j, i ≤ j ∧ j < i + fuel ∧ m j = some v ∧
          ∀ k, i ≤ k → k < j → m k = none := by
  intro fuel
  induction fuel with
  | zero =>
    intro i v
    constructor
    · intro h; simp [searchAux] at h
    · rintro ⟨j, h1, h2, -, -⟩; omega
  | succ n ih =>
    intro i v
    constructor
    · intro h
      unfold searchAux at h
      split at h
      · rename_i w hm
        cases h
        exact ⟨i, le_refl i, by omega, hm,
          fun k hk1 hk2 => ((by omega : False).elim)⟩
      · rename_i hm
        obtain ⟨j, hj1, hj2, hj3, hj4⟩ := (ih (i + 1) v).mp h
        refine ⟨j, by omega, by omega, hj3, fun k hk1 hk2 => ?_⟩
        rcases Nat.eq_or_lt_of_le hk1 with heq | hk
        · rw [← heq]; exact hm
        · exact hj4 k hk hk2
    · rintro ⟨j, hj1, hj2, hj3, hj4⟩
      unfold searchAux
      split
      · rename_i w hm
        rcases Nat.eq_or_lt_of_le hj1 with heq | hlt
        · rw [← heq] at hj3; rw [hm] at hj3; exact hj3
        · rw [hj4 i (le_refl i) hlt] at hm; cases hm
      · rename_i hm
        apply (ih (i + 1) v).mpr
        have hij : i ≠ j := by
          intro heq; rw [← heq] at hj3; rw [hm] at hj3; cases hj3
        exact ⟨j, by omega, by omega, hj3,
          fun k hk1 hk2 => hj4 k (by omega) hk2⟩

lemma searchAux_none_iff {α : Type} (m : ℕ → Option α) :
    ∀ (fuel i : ℕ),
      searchAux m i fuel = none ↔
        ∀ j, i ≤ j → j < i + fuel → m j = none := by
  intro fuel
  induction fuel with
  | zero =>
    intro i
    constructor
    · intro _ j h1 h2; omega
    · intro _; rfl
  | succ n ih =>
    intro i
    constructor
    · intro h j hj1 hj2
      unfold searchAux at h
      split at h
      · cases h
      · rename_i hm
        rcases Nat.eq_or_lt_of_le hj1 with heq | hlt
        · rw [← heq]; exact hm
        · exact (ih (i + 1)).mp h j hlt (by omega)
    · intro h
      unfold searchAux
      split
      · rename_i w hm
        rw [h i (le_refl i) (by omega)] at hm; cases hm
      · exact (ih (i + 1)).mpr fun j hj1 hj2 => h j (by omega) (by omega)

lemma reSearch_eq_some_of_first (m : ℕ → Option (List Char)) (len : ℕ)
    (v : List Char) (hbound : ∀ j, len ≤ j → m j = none)
    (h : FirstMatch m v) : reSearch m len = some v := by
  obtain ⟨i, hi, hmin⟩ := h
  have hilen : i < len + 1 := by
    by_contra hc
    rw [hbound i (by omega)] at hi; cases hi
  exact (searchAux_some_iff m (len + 1) 0 v).mpr
    ⟨i, Nat.zero_le i, by omega, hi, fun k _ hk => hmin k hk⟩

lemma reSearch_eq_none_of (m : ℕ → Option (List Char)) (len : ℕ)
    (hbound : ∀ j, len ≤ j → m j = none)
    (h : ∀ j, j ≤ len → m j = none) : reSearch m len = none := by
  apply (searchAux_none_iff m (len + 1) 0).mpr
  intro j _ _
  rcases le_or_lt j len with h1 | h1
  · exact h j h1
  · exact hbound j (by omega)

/-! ### The four matchers fail beyond the end of the text -/

lemma dateAt_none_of_le {t : List Char} {i : ℕ} (h : t.length ≤ i) :
    dateAt t i = none := by
  unfold dateAt
  rw [List.drop_eq_nil_of_le h]
  rfl

lemma nameAt_none_of_le {t : List Char} {i : ℕ} (h : t.length ≤ i) :
    nameAt t i = none := by
  unfold nameAt
  rw [List.drop_eq_nil_of_le h]
  split <;> rfl

lemma dividendAt_none_of_le {t : List Char} {i : ℕ} (h : t.length ≤ i) :
    dividendAt t i = none := by
  unfold dividendAt
  rw [List.drop_eq_nil_of_le h]
  rfl

lemma amountAt_none_of_le {t : List Char} {i : ℕ} (h : t.length ≤ i) :
    amountAt t i = none := by
  unfold amountAt
  rw [List.drop_eq_nil_of_le h]
  rfl

/-! ### The parsed decimal -/

/-- Value of `mkRat` over a scaled decimal. -/
lemma mkRat_decimal (a b k : ℕ) :
    (mkRat ((a : ℤ) * 10 ^ k + (b : ℤ)) (10 ^ k) : ℚ) =
      (a : ℚ) + (b : ℚ) / (10 : ℚ) ^ k := by
  have h10 : ((10 : ℚ)) ^ k ≠ 0 := pow_ne_zero _ (by norm_num)
  rw [Rat.mkRat_eq_divInt, Rat.divInt_eq_div]
  push_cast
  field_simp

/-- `parseDecimal` is the value `d1 + d2 / 10 ^ |d2|` of the decimal
literal. -/
lemma parseDecimal_eq_add_div (s : List Char) :
    parseDecimal s =
      (digitsToNat (s.takeWhile Char.isDigit) : ℚ) +
        (digitsToNat ((s.drop ((s.takeWhile Char.isDigit).length + 1)).takeWhile
            Char.isDigit) : ℚ) /
          (10 : ℚ) ^
            ((s.drop ((s.takeWhile Char.isDigit).length + 1)).takeWhile
              Char.isDigit).length := by
  unfold parseDecimal
  exact mkRat_decimal _ _ _

/-! ### Workbook lemmas -/

lemma appendRows_eq (rows : List (List Cell)) (data : List DividendRecord) :
    appendRows rows data = rows ++ data.map toRow := by
  induction data generalizing rows with
  | nil => simp [appendRows]
  | cons r rest ih =>
    show appendRows (rows ++ [toRow r]) rest = _
    rw [ih]
    simp

lemma findSheet_setSheet (wb : Workbook) (nm : List Char)
    (rows0 rows : List (List Cell)) (h : findSheet wb nm = some rows0) :
    findSheet (setSheet wb nm rows) nm = some rows := by
  obtain ⟨sheets⟩ := wb
  simp only [findSheet, setSheet] at h ⊢
  induction sheets with
  | nil => simp [lookupSheet] at h
  | cons p rest ih =>
    by_cases hp : p.1 = nm
    · simp [lookupSheet, setSheetRows, hp]
    · simp only [lookupSheet, setSheetRows, if_neg hp] at h ⊢
      exact ih h

/-! ### Collection-loop lemmas -/

lemma extract_readable_ok (pages : List (List Char)) :
    ∃ x, extract_dividend_details (.readable pages) = .ok x := by
  by_cases h : pages.length < 3
  · exact ⟨none, by simp [extract_dividend_details, h]⟩
  · exact ⟨extractFromText (pages.getD 2 []),
      by simp [extract_dividend_details, h]⟩

lemma collectRecords_cons_skip (nm : List Char) (doc : PdfDoc)
    (rest : List (List Char × PdfDoc))
    (h : extract_dividend_details doc = .ok none) :
    collectRecords ((nm, doc) :: rest) = collectRecords rest := by
  conv_lhs => unfold collectRecords
  split
  · rw [h]
  · rfl

lemma collectRecords_middle_skip (pre post : List (List Char × PdfDoc))
    (nm : List Char) (doc : PdfDoc)
    (h : extract_dividend_details doc = .ok none) :
    collectRecords (pre ++ (nm, doc) :: post) = collectRecords (pre ++ post) := by
  induction pre with
  | nil => simpa using collectRecords_cons_skip nm doc post h
  | cons e rest ih =>
    obtain ⟨nm', doc'⟩ := e
    simp only [List.cons_append]
    unfold collectRecords
    rw [ih]

lemma collectRecords_ok_of_readable (dir : List (List Char × PdfDoc))
    (h : ∀ e ∈ dir, e.2 ≠ PdfDoc.unreadable) :
    ∃ recs, collectRecords dir = .ok recs := by
  induction dir with
  | nil => exact ⟨[], rfl⟩
  | cons e rest ih =>
    obtain ⟨recs, hr⟩ := ih fun x hx => h x (List.mem_cons_of_mem _ hx)
    obtain ⟨nm, doc⟩ := e
    unfold collectRecords
    by_cases hs : (".pdf".toList).isSuffixOf nm = true
    · rw [if_pos hs]
      cases doc with
      | unreadable =>
        exact absurd rfl (h (nm, .unreadable) (List.mem_cons_self _ _))
      | readable pages =>
        obtain ⟨x, hx⟩ := extract_readable_ok pages
        rw [hx]
        cases x with
        | none => exact ⟨recs, hr⟩
        | some r => rw [hr]; exact ⟨r :: recs, rfl⟩
    · rw [if_neg hs]; exact ⟨recs, hr⟩

lemma collectRecords_unreadable (pre post : List (List Char × PdfDoc))
    (nm : List Char)
    (hpre : ∀ e ∈ pre, e.2 ≠ PdfDoc.unreadable)
    (hnm : (".pdf".toList).isSuffixOf nm = true) :
    collectRecords (pre ++ (nm, PdfDoc.unreadable) :: post) =
      .error .unreadableDocument := by
  induction pre with
  | nil =>
    show collectRecords ((nm, PdfDoc.unreadable) :: post) = _
    unfold collectRecords
    rw [if_pos hnm]
    rfl
  | cons e rest ih =>
    obtain ⟨nm', doc'⟩ := e
    have ih' := ih fun x hx => hpre x (List.mem_cons_of_mem _ hx)
    have hd : doc' ≠ PdfDoc.unreadable :=
      hpre (nm', doc') (List.mem_cons_self _ _)
    simp only [List.cons_append]
    unfold collectRecords
    by_cases hs : (".pdf".toList).isSuffixOf nm' = true
    · rw [if_pos hs]
      cases doc' with
      | unreadable => exact absurd rfl hd
      | readable pages =>
        obtain ⟨x, hx⟩ := extract_readable_ok pages
        rw [hx]
        cases x with
        | none => exact ih'
        | some r => rw [ih']
    · rw [if_neg hs]; exact ih'

/-! ### Concrete inputs used by the witnesses -/

/-- A page text containing one instance of each of the four patterns. -/
def sampleText : List Char :=
  "02Jan24,Acme Ltd 100@1.23 Dividend 123.45".toList

/-- The record the extractor produces on `sampleText`. -/
def sampleRecord : DividendRecord :=
  ⟨"02Jan24".toList, "Acme Ltd".toList, "100@1.23".toList, mkRat 12345 100⟩

/-- A three-page document whose third page is `sampleText`. -/
def sampleDoc : PdfDoc := .readable [[], [], sampleText]

/-- A directory with one matching document. -/
def sampleDir : List (List Char × PdfDoc) := [("a.pdf".toList, sampleDoc)]

/-- A page text with no date pattern. -/
def noDateText : List Char := "Acme Ltd 100@1.23 Dividend 123.45".toList

/-- An existing workbook without a "Dividends" sheet. -/
def noSheetWb : Workbook := ⟨[("Sheet".toList, [])]⟩

/-- An existing workbook whose "Dividends" sheet holds only the header. -/
def oneSheetWb : Workbook := ⟨[("Dividends".toList, [headerRow])]⟩

/-- The workbook saved by a first run over `sampleDir` with no prior file. -/
def rerunWb : Workbook := ⟨[(dividendsName, [headerRow, toRow sampleRecord])]⟩

/-! ### Reduction helpers for the two fallible stages -/

lemma update_excel_some_found (wb : Workbook) (rows : List (List Cell))
    (data : List DividendRecord)
    (h : findSheet wb dividendsName = some rows) :
    update_excel (some wb) data =
      .ok (setSheet wb dividendsName (appendRows rows data)) := by
  show (match findSheet wb dividendsName with
        | none => Except.error ExcelError.sheetNotFound
        | some rows =>
          Except.ok (setSheet wb dividendsName (appendRows rows data))) = _
  rw [h]

lemma update_excel_some_missing (wb : Workbook) (data : List DividendRecord)
    (h : findSheet wb dividendsName = none) :
    update_excel (some wb) data = .error .sheetNotFound := by
  show (match findSheet wb dividendsName with
        | none => Except.error ExcelError.sheetNotFound
        | some rows =>
          Except.ok (setSheet wb dividendsName (appendRows rows data))) = _
  rw [h]

lemma process_pdfs_ok (dir : List (List Char × PdfDoc)) (fs : Option Workbook)
    (recs : List DividendRecord) (wb2 : Workbook)
    (hc : collectRecords dir = .ok recs)
    (hu : update_excel fs recs = .ok wb2) :
    process_pdfs dir fs = .ok wb2 := by
  unfold process_pdfs
  rw [hc]
  show (match update_excel fs recs with
        | .error e => Except.error (RunError.excel e)
        | .ok wb => Except.ok wb) = _
  rw [hu]

lemma process_pdfs_excel_error (dir : List (List Char × PdfDoc))
    (fs : Option Workbook) (recs : List DividendRecord) (e : ExcelError)
    (hc : collectRecords dir = .ok recs)
    (hu : update_excel fs recs = .error e) :
    process_pdfs dir fs = .error (.excel e) := by
  unfold process_pdfs
  rw [hc]
  show (match update_excel fs recs with
        | .error e => Except.error (RunError.excel e)
        | .ok wb => Except.ok wb) = _
  rw [hu]

lemma process_pdfs_pdf_error (dir : List (List Char × PdfDoc))
    (fs : Option Workbook) (e : PdfError)
    (hc : collectRecords dir = .error e) :
    process_pdfs dir fs = .error (.pdf e) := by
  unfold process_pdfs
  rw [hc]

/-! ### Claims -/

/-- C1: on any page text where each of the four patterns has a first
occurrence (in particular a text containing exactly one instance of each),
the extractor returns a record whose date, issuer name and dividend-detail
fields are exactly those first-occurrence matched substrings — first
meaning the leftmost anchor position, scanning top-to-bottom
left-to-right — and whose amount is the parsed decimal captured after
`Dividend\s`. -/
theorem c1_extractor_first_matches (t vd vn vv va : List Char)
    (hd : FirstMatch (dateAt t) vd) (hn : FirstMatch (nameAt t) vn)
    (hv : FirstMatch (dividendAt t) vv) (ha : FirstMatch (amountAt t) va) :
    extractFromText t = some ⟨vd, vn, vv, parseDecimal va⟩ := by
  have h1 := reSearch_eq_some_of_first (dateAt t) t.length vd
    (fun j hj => dateAt_none_of_le hj) hd
  have h2 := reSearch_eq_some_of_first (nameAt t) t.length vn
    (fun j hj => nameAt_none_of_le hj) hn
  have h3 := reSearch_eq_some_of_first (dividendAt t) t.length vv
    (fun j hj => dividendAt_none_of_le hj) hv
  have h4 := reSearch_eq_some_of_first (amountAt t) t.length va
    (fun j hj => amountAt_none_of_le hj) ha
  unfold extractFromText
  rw [h1, h2, h3, h4]

/-- Witness for C1 at `sampleText`. -/
theorem c1_witness :
    extractFromText sampleText =
      some ⟨"02Jan24".toList, "Acme Ltd".toList, "100@1.23".toList,
        parseDecimal "123.45".toList⟩ :=
  c1_extractor_first_matches sampleText _ _ _ _
    ⟨0, by decide, by decide⟩ ⟨8, by decide, by decide⟩
    ⟨17, by decide, by decide⟩ ⟨26, by decide, by decide⟩

/-- C2: if any one of the four patterns has no match anywhere in the page
text, the extractor returns no record. -/
theorem c2_extractor_missing_field (t : List Char)
    (h : (∀ i, i ≤ t.length → dateAt t i = none) ∨
         (∀ i, i ≤ t.length → nameAt t i = none) ∨
         (∀ i, i ≤ t.length → dividendAt t i = none) ∨
         (∀ i, i ≤ t.length → amountAt t i = none)) :
    extractFromText t = none := by
  unfold extractFromText
  rcases h with h | h | h | h
  · rw [reSearch_eq_none_of _ _ (fun j hj => dateAt_none_of_le hj) h]
  · rw [reSearch_eq_none_of _ _ (fun j hj => nameAt_none_of_le hj) h]
    cases reSearch (dateAt t) t.length <;> rfl
  · rw [reSearch_eq_none_of _ _ (fun j hj => dividendAt_none_of_le hj) h]
    cases reSearch (dateAt t) t.length <;>
      cases reSearch (nameAt t) t.length <;> rfl
  · rw [reSearch_eq_none_of _ _ (fun j hj => amountAt_none_of_le hj) h]
    cases reSearch (dateAt t) t.length <;>
      cases reSearch (nameAt t) t.length <;>
      cases reSearch (dividendAt t) t.length <;> rfl

/-- Witness for C2 on a text with no date pattern. -/
theorem c2_witness : extractFromText noDateText = none :=
  c2_extractor_missing_field noDateText (Or.inl (by decide))

/-- C3: a document with fewer than 3 pages yields no record and contributes
no row to the final store (the run over a directory containing it equals
the run without it); a document with at least 3 pages proceeds with the
extracted text of the third page (index 2). -/
theorem c3_reader_page_gate (nm : List Char) (pages : List (List Char))
    (pre post : List (List Char × PdfDoc)) (fs : Option Workbook) :
    (pages.length < 3 →
      extract_dividend_details (.readable pages) = .ok none ∧
      process_pdfs (pre ++ (nm, PdfDoc.readable pages) :: post) fs =
        process_pdfs (pre ++ post) fs) ∧
    (∀ h3 : 3 ≤ pages.length,
      extract_dividend_details (.readable pages) =
        .ok (extractFromText (pages.get ⟨2, by omega⟩))) := by
  constructor
  · intro hlt
    have hex : extract_dividend_details (.readable pages) = .ok none := by
      simp [extract_dividend_details, hlt]
    refine ⟨hex, ?_⟩
    unfold process_pdfs
    rw [collectRecords_middle_skip _ _ _ _ hex]
  · intro h3
    have hlt : ¬ pages.length < 3 := by omega
    have h2 : 2 < pages.length := by omega
    simp [extract_dividend_details, hlt, List.getElem?_eq_getElem h2]

/-- Witness for C3 with a two-page document. -/
theorem c3_witness :
    extract_dividend_details (.readable [[], []]) = .ok none ∧
    process_pdfs ([] ++ ("a.pdf".toList, PdfDoc.readable [[], []]) :: []) none =
      process_pdfs ([] ++ []) none :=
  (c3_reader_page_gate "a.pdf".toList [[], []] [] [] none).1 (by decide)

/-- C4 counterexample: a directory whose only document is unreadable makes
the run abort with the propagated exception — the store save never
happens, contradicting the claim that unreadable documents are skipped
and the single save still occurs. -/
theorem c4_counterexample :
    process_pdfs [("bad.pdf".toList, PdfDoc.unreadable)] none =
      .error (.pdf .unreadableDocument) := rfl

/-- C4 (amended): per-document failures at the page-count or extraction
stage are local — if no document in the directory is unreadable (and the
destination store is usable) the loop runs to completion and performs its
single save; but an unreadable document's exception propagates out of the
loop and aborts the run with no save. -/
theorem c4_amended_local_failures (dir : List (List Char × PdfDoc))
    (fs : Option Workbook)
    (hfs : fs = none ∨
      ∃ wb rows, fs = some wb ∧ findSheet wb dividendsName = some rows) :
    ((∀ e ∈ dir, e.2 ≠ PdfDoc.unreadable) →
      savesOk (process_pdfs dir fs) = true) ∧
    (∀ pre post nm, dir = pre ++ (nm, PdfDoc.unreadable) :: post →
      (∀ e ∈ pre, e.2 ≠ PdfDoc.unreadable) →
      (".pdf".toList).isSuffixOf nm = true →
      process_pdfs dir fs = .error (.pdf .unreadableDocument)) := by
  constructor
  · intro hread
    obtain ⟨recs, hr⟩ := collectRecords_ok_of_readable dir hread
    rcases hfs with rfl | ⟨wb, rows, rfl, hwb⟩
    · rw [process_pdfs_ok dir none recs _ hr rfl]
      rfl
    · rw [process_pdfs_ok dir (some wb) recs _ hr
        (update_excel_some_found wb rows recs hwb)]
      rfl
  · rintro pre post nm rfl hpre hnm
    exact process_pdfs_pdf_error _ fs _
      (collectRecords_unreadable pre post nm hpre hnm)

/-- Witness for C4 (amended): an all-readable directory completes and
saves. -/
theorem c4_witness :
    savesOk (process_pdfs [("a.pdf".toList, PdfDoc.readable [[]]),
      ("b.pdf".toList, PdfDoc.readable [[], [], []])] none) = true :=
  (c4_amended_local_failures _ none (Or.inl rfl)).1 (by decide)

/-- C5: when the destination does not exist the appender creates a
workbook with the single sheet "Dividends", whose first row is exactly the
header `["Date", "Name", "Dividend Details", "Amount"]`, followed by one
row per record in input order. -/
theorem c5_create_destination (data : List DividendRecord) :
    update_excel none data =
      .ok ⟨[("Dividends".toList,
        [Cell.str "Date".toList, Cell.str "Name".toList,
         Cell.str "Dividend Details".toList, Cell.str "Amount".toList] ::
        data.map toRow)]⟩ := by
  unfold update_excel
  rw [appendRows_eq]
  rfl

/-- C6: when the destination exists but has no sheet named "Dividends",
the appender fails with the sheet-not-found error, and the failure is
fatal: no run over any directory against that destination can end in a
saved workbook. -/
theorem c6_missing_sheet_fatal (wb : Workbook) (data : List DividendRecord)
    (dir : List (List Char × PdfDoc))
    (h : findSheet wb dividendsName = none) :
    update_excel (some wb) data = .error .sheetNotFound ∧
    ∀ wb2, process_pdfs dir (some wb) ≠ .ok wb2 := by
  refine ⟨update_excel_some_missing wb data h, ?_⟩
  intro wb2 hc
  cases hcol : collectRecords dir with
  | error e => rw [process_pdfs_pdf_error dir (some wb) e hcol] at hc; cases hc
  | ok recs =>
    rw [process_pdfs_excel_error dir (some wb) recs .sheetNotFound hcol
      (update_excel_some_missing wb recs h)] at hc
    cases hc

/-- Witness for C6. -/
theorem c6_witness :
    update_excel (some noSheetWb) [] = .error .sheetNotFound :=
  (c6_missing_sheet_fatal noSheetWb [] [] (by decide)).1

/-- C7: appending M records to an existing destination whose "Dividends"
sheet holds rows `rows` leaves those first rows unchanged and yields
exactly `rows.length + M` rows, the M new rows following in input
order. -/
theorem c7_append_preserves (wb : Workbook) (rows : List (List Cell))
    (data : List DividendRecord)
    (h : findSheet wb dividendsName = some rows) :
    update_excel (some wb) data =
      .ok (setSheet wb dividendsName (rows ++ data.map toRow)) ∧
    findSheet (setSheet wb dividendsName (rows ++ data.map toRow))
        dividendsName = some (rows ++ data.map toRow) ∧
    (rows ++ data.map toRow).take rows.length = rows ∧
    (rows ++ data.map toRow).length = rows.length + data.length := by
  refine ⟨?_, findSheet_setSheet wb dividendsName rows _ h,
    List.take_left _ _, by simp⟩
  rw [update_excel_some_found wb rows data h, appendRows_eq]

/-- Witness for C7. -/
theorem c7_witness :
    update_excel (some oneSheetWb) [sampleRecord] =
      .ok (setSheet oneSheetWb dividendsName
        ([headerRow] ++ [sampleRecord].map toRow)) ∧
    findSheet (setSheet oneSheetWb dividendsName
        ([headerRow] ++ [sampleRecord].map toRow)) dividendsName =
      some ([headerRow] ++ [sampleRecord].map toRow) ∧
    ([headerRow] ++ [sampleRecord].map toRow).take [headerRow].length =
      [headerRow] ∧
    ([headerRow] ++ [sampleRecord].map toRow).length =
      [headerRow].length + [sampleRecord].length :=
  c7_append_preserves oneSheetWb [headerRow] [sampleRecord] (by decide)

/-- C8: a record's row stores the three matched substrings as text cells
and the amount as a numeric cell; on a page text containing
`Dividend 123.45` the extracted amount is the number 123.45 = 12345/100,
and a numeric cell is never equal to any text cell. -/
theorem c8_amount_numeric :
    (∀ r : DividendRecord,
      toRow r = [Cell.str r.date, Cell.str r.name,
        Cell.str r.dividendDetails, Cell.num r.amount]) ∧
    (extractFromText sampleText).map DividendRecord.amount =
      some ((12345 : ℚ) / 100) ∧
    (∀ s : List Char, Cell.num ((12345 : ℚ) / 100) ≠ Cell.str s) :=
  ⟨fun _ => rfl, by
    have h1 : (extractFromText sampleText).map DividendRecord.amount =
        some (mkRat 12345 100) := rfl
    rw [h1, Rat.mkRat_eq_divInt, Rat.divInt_eq_div]
    norm_num, fun s h => Cell.noConfusion h⟩

/-- A first run with no pre-existing destination saves the singleton
workbook holding the header and the collected rows. -/
lemma process_none_ok_inv (dir : List (List Char × PdfDoc))
    (recs : List DividendRecord) (wb1 : Workbook)
    (hc : collectRecords dir = .ok recs)
    (h1 : process_pdfs dir none = .ok wb1) :
    wb1 = ⟨[(dividendsName, headerRow :: recs.map toRow)]⟩ := by
  rw [process_pdfs_ok dir none recs
      ⟨[(dividendsName, appendRows [headerRow] recs)]⟩ hc rfl] at h1
  injection h1 with h2
  rw [← h2, appendRows_eq]
  rfl

/-- C9: the pipeline is not idempotent — if a first run over `dir` with no
pre-existing destination saves `wb1`, then a second run over the unchanged
`dir` against `wb1` succeeds and appends the same rows again, so the saved
sheet holds the header followed by the collected rows twice, and the
data-row count (total rows minus the header) doubles. -/
theorem c9_rerun_doubles (dir : List (List Char × PdfDoc))
    (recs : List DividendRecord) (wb1 : Workbook)
    (hc : collectRecords dir = .ok recs)
    (h1 : process_pdfs dir none = .ok wb1) :
    findSheet wb1 dividendsName = some (headerRow :: recs.map toRow) ∧
    process_pdfs dir (some wb1) =
      .ok ⟨[(dividendsName,
        headerRow :: (recs.map toRow ++ recs.map toRow))]⟩ ∧
    (headerRow :: (recs.map toRow ++ recs.map toRow)).length - 1 =
      2 * ((headerRow :: recs.map toRow).length - 1) := by
  have hwb := process_none_ok_inv dir recs wb1 hc h1
  subst hwb
  refine ⟨rfl, ?_, by simp [Nat.two_mul]⟩
  have hfind : findSheet ⟨[(dividendsName, headerRow :: recs.map toRow)]⟩
      dividendsName = some (headerRow :: recs.map toRow) := rfl
  rw [process_pdfs_ok dir _ recs _ hc
    (update_excel_some_found _ _ recs hfind)]
  rw [appendRows_eq]
  rfl

/-- Witness for C9 over the one-document directory. -/
theorem c9_witness :
    findSheet rerunWb dividendsName =
      some (headerRow :: [sampleRecord].map toRow) ∧
    process_pdfs sampleDir (some rerunWb) =
      .ok ⟨[(dividendsName,
        headerRow :: ([sampleRecord].map toRow ++ [sampleRecord].map toRow))]⟩ ∧
    (headerRow :: ([sampleRecord].map toRow ++ [sampleRecord].map toRow)).length
        - 1 =
      2 * ((headerRow :: [sampleRecord].map toRow).length - 1) :=
  c9_rerun_doubles sampleDir [sampleRecord] rerunWb rfl rfl

/-- C10: a run that collects no records still performs its single save;
with no pre-existing destination the saved file has exactly the
"Dividends" sheet with the header row and zero data rows. -/
theorem c10_empty_collection (dir : List (List Char × PdfDoc))
    (h : collectRecords dir = .ok []) :
    process_pdfs dir none = .ok ⟨[(dividendsName, [headerRow])]⟩ :=
  process_pdfs_ok dir none [] _ h rfl

/-- Witness for C10: a directory with a non-".pdf" file and a two-page
document collects nothing but still saves the header-only workbook. -/
theorem c10_witness :
    process_pdfs [("notes.txt".toList, sampleDoc),
      ("short.pdf".toList, PdfDoc.readable [[], []])] none =
      .ok ⟨[(dividendsName, [headerRow])]⟩ :=
  c10_empty_collection _ rfl
